import Mathlib

/-!
Verification development for the sensu-go-systemd-handler repository.

The Go sources are shallowly embedded: pure helpers become Lean functions,
D-Bus / process / filesystem effects are threaded through explicit world
records describing what the external libraries return, and Go `error`
values become an inductive `GoErr` whose constructors mirror the
`fmt.Errorf` wrappings in the source.
-/

set_option autoImplicit false

deriving instance DecidableEq for Except

/-- Go `error` values produced by the handler and its service package.
Each constructor mirrors one `fmt.Errorf`/sentinel in the source; `%w`
wrapping is modelled by a constructor holding the inner error, and errors
produced by external libraries are `external`. -/
inductive GoErr where
  /-- Mirrors `filepath.ErrBadPattern` (library sentinel). -/
  | badPattern
  /-- Mirrors `"matching with pattern %s error: %w"` in `MatchUnitPatterns`. -/
  | matchPattern (pattern : String) (inner : GoErr)
  /-- Mirrors `"matching unit patterns error: %w"` in `listUnitsWrapper`. -/
  | matchingUnitPatternsErr (inner : GoErr)
  /-- Mirrors `"ListUnitsFiltered error: %w"` in `listUnitsFilteredWrapper`. -/
  | listUnitsFilteredErr (inner : GoErr)
  /-- Mirrors `"ListUnits error: %w"` in `listUnitsWrapper`. -/
  | listUnitsCallErr (inner : GoErr)
  /-- Mirrors `"no supported list Units function: %v"`; carries the discovered method set. -/
  | noListUnitsFunc (methods : List String)
  /-- Mirrors `"no methods found on introspect"`. -/
  | noMethodsFound
  /-- Mirrors `"error handling XML: %w"` in `InstrospectForUnitMethods`. -/
  | xmlHandlingErr (inner : GoErr)
  /-- Mirrors `"dbus call error: %w"` in `InstrospectForUnitMethods`. -/
  | dbusCallErr (inner : GoErr)
  /-- Mirrors `"unsupported action: %s"` in `getActionFunc`. -/
  | unsupportedAction (action : String)
  /-- Mirrors `"--unit or SYSTEMD_UNIT environment variable is required"`. -/
  | unitRequired
  /-- Mirrors `"--action must be one of %v, but it is: %v"`. -/
  | badAction (action : String)
  /-- Mirrors `"--mode must be one of %v, but it is: %v"`. -/
  | badMode (mode : String)
  /-- Mirrors `"connection timeout"` in `waitForSocket`. -/
  | connectionTimeout
  /-- Mirrors `"inotify error: %w"` in `waitForSocket`. -/
  | inotifyErr (inner : GoErr)
  /-- Mirrors `"watcher new error: %w"` in `waitForSocket`. -/
  | watcherNewErr (inner : GoErr)
  /-- Mirrors `"watcher add error: %w"` in `waitForSocket`. -/
  | watcherAddErr (inner : GoErr)
  /-- Mirrors `"command error: %w"` in `DBusTunnel.run`. -/
  | commandErr (inner : GoErr)
  /-- Mirrors `"SSH Tunnel error: %w"` in `executeHandler`. -/
  | sshTunnelErr (inner : GoErr)
  /-- Mirrors `"D-BUS error: %w"` in `executeHandler`. -/
  | dbusErr (inner : GoErr)
  /-- Mirrors `"could not introspect systemd dbus: %w"` in `executeHandler`. -/
  | introspectErr (inner : GoErr)
  /-- Mirrors `"list units error: %w"` in `executeHandler`. -/
  | listUnitsError (inner : GoErr)
  /-- An error produced by an external library call, identified by a message. -/
  | external (msg : String)
deriving DecidableEq, Repr

/-- The four fields of `dbus.UnitStatus` that the handler reads
(`Name` for pattern matching, the three states for state filtering). -/
structure UnitStatus where
  Name : String
  LoadState : String
  ActiveState : String
  SubState : String
deriving DecidableEq, Repr

/-! Section: Model of Go `path/filepath.Match` (library boundary)

`MatchUnitPatterns` delegates single-pattern matching to the Go standard
library's `filepath.Match`.  The model below implements its documented
shell-glob semantics on `List Char`: `*` matches any run of non-separator
characters, `?` one non-separator character, `[...]`/`[^...]` character
classes with ranges, and backslash escapes; a syntactically malformed
pattern yields `ErrBadPattern` for every name (as in Go since the
remainder of the pattern is always validated before a non-error return). -/

/-- One character-class range element, possibly escaped; mirrors `getEsc`
in filepath: rejects an empty chunk, a leading `-` or `]`, a dangling
escape, and requires the class to continue after the element. -/
def getEsc : List Char → Option (Char × List Char)
  | [] => none
  | '-' :: _ => none
  | ']' :: _ => none
  | '\\' :: rest =>
    match rest with
    | [] => none
    | c :: rest' => if rest'.isEmpty then none else some (c, rest')
  | c :: rest => if rest.isEmpty then none else some (c, rest)

/-- Parse the ranges of a character class up to the closing `]`; the first
`]` may close the class only after at least one range has been read.
Fuel decreases on every step, so `length + 1` fuel always suffices. -/
def parseRanges : Nat → List Char → Nat → Option (List (Char × Char) × List Char)
  | 0, _, _ => none
  | fuel + 1, chunk, nrange =>
    match chunk with
    | ']' :: rest =>
      if nrange > 0 then some ([], rest)
      else none
    | _ =>
      match getEsc chunk with
      | none => none
      | some (lo, chunk1) =>
        match chunk1 with
        | '-' :: chunk2 =>
          match getEsc chunk2 with
          | none => none
          | some (hi, chunk3) =>
            match parseRanges fuel chunk3 (nrange + 1) with
            | none => none
            | some (ranges, rest) => some ((lo, hi) :: ranges, rest)
        | _ =>
          match parseRanges fuel chunk1 (nrange + 1) with
          | none => none
          | some (ranges, rest) => some ((lo, lo) :: ranges, rest)

/-- Parse a character class body (the part after `[`): an optional `^`
negation marker followed by one or more ranges and the closing `]`.
Returns the negation flag, the ranges, and the rest of the pattern. -/
def parseClass (p : List Char) : Option (Bool × List (Char × Char) × List Char) :=
  match p with
  | '^' :: rest =>
    match parseRanges (rest.length + 1) rest 0 with
    | none => none
    | some (ranges, p') => some (true, ranges, p')
  | _ =>
    match parseRanges (p.length + 1) p 0 with
    | none => none
    | some (ranges, p') => some (false, ranges, p')

/-- Does character `c` satisfy a (possibly negated) class of ranges? -/
def classMatches (negated : Bool) (ranges : List (Char × Char)) (c : Char) : Bool :=
  let m := ranges.any (fun r => decide (r.1 ≤ c) && decide (c ≤ r.2))
  if negated then !m else m

/-- Fuel-driven glob matcher.  Every recursive call strictly decreases
`pattern.length + name.length`, so fuel `pattern.length + name.length + 1`
computes the total function. -/
def globMatchF : Nat → List Char → List Char → Bool
  | 0, _, _ => false
  | _ + 1, [], s => s.isEmpty
  | fuel + 1, '*' :: p, s =>
    globMatchF fuel p s ||
      (match s with
       | [] => false
       | c :: s' => !(c = '/') && globMatchF fuel ('*' :: p) s')
  | fuel + 1, '?' :: p, s =>
    (match s with
     | [] => false
     | c :: s' => !(c = '/') && globMatchF fuel p s')
  | fuel + 1, '[' :: p, s =>
    (match parseClass p with
     | none => false
     | some (neg, ranges, p') =>
       match s with
       | [] => false
       | c :: s' => classMatches neg ranges c && globMatchF fuel p' s')
  | fuel + 1, '\\' :: p, s =>
    (match p, s with
     | c :: p', d :: s' => (c = d) && globMatchF fuel p' s'
     | _, _ => false)
  | fuel + 1, c :: p, s =>
    (match s with
     | [] => false
     | d :: s' => (c = d) && globMatchF fuel p s')

/-- Shell-glob matching of a name against a well-formed pattern. -/
def globMatches (pattern name : String) : Bool :=
  globMatchF (pattern.toList.length + name.toList.length + 1) pattern.toList name.toList

/-- Syntactic well-formedness of a glob pattern: character classes parse
to a closing `]` and no escape dangles.  Each step consumes at least one
character, so `length + 1` fuel always suffices. -/
def validPatternF : Nat → List Char → Bool
  | 0, _ => false
  | _ + 1, [] => true
  | fuel + 1, '[' :: p =>
    (match parseClass p with
     | none => false
     | some (_, _, p') => validPatternF fuel p')
  | fuel + 1, '\\' :: p =>
    (match p with
     | [] => false
     | _ :: p' => validPatternF fuel p')
  | fuel + 1, _ :: p => validPatternF fuel p

/-- Well-formedness of a glob pattern string. -/
def validPattern (pattern : String) : Bool :=
  validPatternF (pattern.toList.length + 1) pattern.toList

/-- Model of `filepath.Match pattern name`: `ErrBadPattern` for a
malformed pattern (for every name), otherwise the glob-match verdict. -/
def filepathMatch (pattern name : String) : Except GoErr Bool :=
  if validPattern pattern then .ok (globMatches pattern name)
  else .error .badPattern

/-- The inner loop of `MatchUnitPatterns` for one unit: try the patterns
in order, stop at the first match (Go `break`) or the first
`filepath.Match` error, which is wrapped naming the offending pattern. -/
def unitMatchFirst (patterns : List String) (name : String) : Except GoErr Bool :=
  match patterns with
  | [] => .ok false
  | p :: rest =>
    match filepathMatch p name with
    | .error e => .error (.matchPattern p e)
    | .ok true => .ok true
    | .ok false => unitMatchFirst rest name

/-- The `MatchUnitPatterns` (src/unnamed/part_001 lines 306-321): keep the
units, in order, whose name matches at least one pattern; propagate the
first matching error encountered. -/
def matchUnitPatterns (patterns : List String) : List UnitStatus → Except GoErr (List UnitStatus)
  | [] => .ok []
  | u :: rest =>
    match unitMatchFirst patterns u.Name with
    | .error e => .error e
    | .ok m =>
      match matchUnitPatterns patterns rest with
      | .error e => .error e
      | .ok tail => .ok (if m then u :: tail else tail)

/-! Section: Capability introspector (src/unnamed/part_001) -/

/-- One `<interface>` node of the decoded introspection XML: its name and
its method names.  The XML wire decoding itself (`encoding/xml`) is at the
library boundary; the model starts from the decoded structure. -/
structure Iface where
  name : String
  methods : List String
deriving DecidableEq, Repr

/-- Does `l` start with `p`?  Helper for the `strings.Contains` model. -/
def charsStartWith : List Char → List Char → Bool
  | [], _ => true
  | _ :: _, [] => false
  | p :: ps, c :: cs => (p = c) && charsStartWith ps cs

/-- Model of Go `strings.Contains needle haystack` (library boundary):
some suffix of the haystack starts with the needle. -/
def strContains (haystack needle : String) : Bool :=
  haystack.toList.tails.any (fun t => charsStartWith needle.toList t)

/-- The `parseXMLAndReturnMethods`: error when no interface was decoded,
otherwise the set of method names (across all interfaces) whose name
contains the substring `ListUnits`. -/
def parseXMLAndReturnMethods (ifaces : List Iface) : Except GoErr (List String) :=
  if ifaces.length = 0 then .error .noMethodsFound
  else .ok (((ifaces.map Iface.methods).flatten).filter
    (fun m => strContains m "ListUnits"))

/-- Which unit-enumeration wrapper `InstrospectForUnitMethods` binds:
`byPatterns` = `listUnitsByPatternWrapper`, `filtered` =
`listUnitsFilteredWrapper`, `plain` = `listUnitsWrapper`. -/
inductive FetcherKind where
  | byPatterns
  | filtered
  | plain
deriving DecidableEq, Repr

/-- The selection at the end of `InstrospectForUnitMethods`
(src/unnamed/part_001 lines 211-219): strict preference
`ListUnitsByPatterns` > `ListUnitsFiltered` > `ListUnits`, otherwise a
capability error carrying the discovered method set. -/
def selectFetcher (unitMap : List String) : Except GoErr FetcherKind :=
  if "ListUnitsByPatterns" ∈ unitMap then .ok FetcherKind.byPatterns
  else if "ListUnitsFiltered" ∈ unitMap then .ok FetcherKind.filtered
  else if "ListUnits" ∈ unitMap then .ok FetcherKind.plain
  else .error (.noListUnitsFunc unitMap)

/-- A D-Bus endpoint the process can talk to: the local system bus
(`dbusRaw.SystemBusPrivate`) or the remote systemd reached through the
SSH tunnel connection. -/
inductive ConnTarget where
  | localBus
  | remoteTunnel
deriving DecidableEq, Repr

/-- The connection `InstrospectForUnitMethods` actually introspects:
the one it is given, or — when given `nil` — a freshly opened connection
to the local system bus (`if conn == nil { conn, err = dbusRaw.SystemBusPrivate() }`). -/
def connTargetOf (conn : Option ConnTarget) : ConnTarget :=
  match conn with
  | none => ConnTarget.localBus
  | some c => c

/-- The systemd action bound by `getActionFunc`; each tag denotes the
corresponding `dbus.Conn` method (`StartUnit`, `StopUnit`, ...). -/
inductive ActionKind where
  | start
  | stop
  | restart
  | reload
  | tryRestart
  | reloadOrRestart
  | reloadOrTryRestart
deriving DecidableEq, Repr

/-- The behaviour of the external world (tunnel, D-Bus endpoints,
systemd job execution) during one handler run. -/
structure HandlerWorld where
  /-- Outcome of `service.NewDBusTunnel`. -/
  tunnelErr : Option GoErr
  /-- Outcome of `stun.New()` (the authenticated systemd connection). -/
  connErr : Option GoErr
  /-- Decoded introspection data returned by
  `org.freedesktop.DBus.Introspectable.Introspect` on each endpoint
  (connection setup, auth and Hello failures fold into the error case). -/
  introspect : ConnTarget → Except GoErr (List Iface)
  /-- The `conn.ListUnitsContext` on the tunnelled systemd connection. -/
  listUnits : Except GoErr (List UnitStatus)
  /-- The `conn.ListUnitsFilteredContext states` on the tunnelled connection. -/
  listUnitsFiltered : List String → Except GoErr (List UnitStatus)
  /-- The `conn.ListUnitsByPatternsContext states patterns`. -/
  listUnitsByPatterns : List String → List String → Except GoErr (List UnitStatus)
  /-- The `conn.<Action>Unit name mode ch`: job id plus the terminal result
  string delivered on the completion channel, or an invocation error. -/
  invoke : ActionKind → String → String → Except GoErr (Nat × String)

/-- The `InstrospectForUnitMethods` (src/unnamed/part_001 lines 174-220):
introspect the given connection — or the local system bus when given
`nil` — collect the `ListUnits*` method names, and select a fetcher. -/
def instrospectForUnitMethods (w : HandlerWorld) (conn : Option ConnTarget) :
    Except GoErr FetcherKind :=
  match w.introspect (connTargetOf conn) with
  | .error e => .error (.dbusCallErr e)
  | .ok ifaces =>
    match parseXMLAndReturnMethods ifaces with
    | .error e => .error (.xmlHandlingErr e)
    | .ok unitMap => selectFetcher unitMap

/-- The `listUnitsByPatternWrapper`: bare call to the native method. -/
def listUnitsByPatternWrapper
    (byPatterns : List String → List String → Except GoErr (List UnitStatus))
    (states patterns : List String) : Except GoErr (List UnitStatus) :=
  byPatterns states patterns

/-- The `listUnitsFilteredWrapper`: state-filtered enumeration on the remote,
then local pattern matching. -/
def listUnitsFilteredWrapper
    (filteredCall : List String → Except GoErr (List UnitStatus))
    (states patterns : List String) : Except GoErr (List UnitStatus) :=
  match filteredCall states with
  | .error e => .error (.listUnitsFilteredErr e)
  | .ok units => matchUnitPatterns patterns units

/-- The `listUnitsWrapper` (src/unnamed/part_001 lines 276-302): unfiltered
enumeration, then — if patterns were given — local pattern matching, then
— if states were given — keep units where any of the three state fields
equals one of the requested states. -/
def listUnitsWrapper (enum : Except GoErr (List UnitStatus))
    (states patterns : List String) : Except GoErr (List UnitStatus) :=
  match enum with
  | .error e => .error (.listUnitsCallErr e)
  | .ok units =>
    match
      (if patterns.length > 0 then
        match matchUnitPatterns patterns units with
        | .error e => .error (.matchingUnitPatternsErr e)
        | .ok us => .ok us
      else .ok units : Except GoErr (List UnitStatus)) with
    | .error e => .error e
    | .ok units2 =>
      if states.length > 0 then
        .ok (units2.filter (fun u => states.any
          (fun s => u.LoadState == s || u.ActiveState == s || u.SubState == s)))
      else .ok units2

/-- Apply the fetcher bound by capability resolution to the (remote)
connection data, as `unitFetcher(conn, states, patterns)` does. -/
def applyFetcher (w : HandlerWorld) (fk : FetcherKind) (states patterns : List String) :
    Except GoErr (List UnitStatus) :=
  match fk with
  | .byPatterns => listUnitsByPatternWrapper w.listUnitsByPatterns states patterns
  | .filtered => listUnitsFilteredWrapper w.listUnitsFiltered states patterns
  | .plain => listUnitsWrapper w.listUnits states patterns

/-! Section: Action dispatcher (src/main.go) -/

/-- The handler plugin configuration fields read by `checkArgs` and
`executeHandler` (tunnel settings are modelled separately). -/
structure Config where
  unitPatterns : List String
  matchUnits : Bool
  action : String
  mode : String
deriving DecidableEq, Repr

/-- The `stringsContains` (src/main.go lines 116-124). -/
def stringsContains : List String → String → Bool
  | [], _ => false
  | ss :: rest, s => if s = ss then true else stringsContains rest s

/-- The allowed action names of `checkArgs`. -/
def allowedActions : List String :=
  ["start", "stop", "restart", "reload", "try-restart", "reload-or-restart",
    "reload-or-try-restart"]

/-- The allowed mode names of `checkArgs`. -/
def allowedModes : List String :=
  ["replace", "fail", "isolate", "ignore-dependencies", "ignore-requirements"]

/-- The `checkArgs` (src/main.go lines 156-171): argument validation run by
the plugin harness before `executeHandler`. -/
def checkArgs (cfg : Config) : Option GoErr :=
  if cfg.unitPatterns.length = 0 then some .unitRequired
  else if !(stringsContains allowedActions cfg.action) then some (.badAction cfg.action)
  else if !(stringsContains allowedModes cfg.mode) then some (.badMode cfg.mode)
  else none

/-- The `getActionFunc` (src/main.go lines 128-154): the switch over the
action name, returning the bound `dbus.Conn` method or an error. -/
def getActionFunc (action : String) : Except GoErr ActionKind :=
  if action = "start" then .ok .start
  else if action = "stop" then .ok .stop
  else if action = "restart" then .ok .restart
  else if action = "reload" then .ok .reload
  else if action = "try-restart" then .ok .tryRestart
  else if action = "reload-or-restart" then .ok .reloadOrRestart
  else if action = "reload-or-try-restart" then .ok .reloadOrTryRestart
  else .error (.unsupportedAction action)

/-- What one dispatch goroutine does, observably: either it runs to
completion having sent the listed errors into the error channel, or it
sends the listed errors and then invokes a nil action function — the
`getActionFunc` error branch has no `return`, so control falls through
to `af(unitName, ...)` with `af == nil`, a runtime panic. -/
inductive UnitOutcome where
  | sent (errs : List GoErr)
  | panicked (errs : List GoErr)
deriving DecidableEq, Repr

/-- The body of the per-unit goroutine in `executeHandler`
(src/main.go lines 223-244). -/
def goroutineBody (cfg : Config) (w : HandlerWorld) (unitName : String) : UnitOutcome :=
  match getActionFunc cfg.action with
  | .error e2 => .panicked [e2]
  | .ok af =>
    match w.invoke af unitName cfg.mode with
    | .error e2 => .sent [e2]
    | .ok _ => .sent []

/-- The errors a goroutine placed into the channel. -/
def sentErrors : UnitOutcome → List GoErr
  | .sent errs => errs
  | .panicked errs => errs

/-- The contents of the bounded error channel after all goroutines
joined, drained in dispatch order; `multierr.Append` folded over this
list is nil exactly when the list is empty and otherwise wraps each
element unchanged. -/
def dispatchUnits (cfg : Config) (w : HandlerWorld) : List String → List GoErr
  | [] => []
  | u :: rest => sentErrors (goroutineBody cfg w u) ++ dispatchUnits cfg w rest

/-- How a non-nil error returned by a run arose: a setup-phase failure
returned before fan-out, or the multierr aggregate of per-unit errors. -/
inductive RunError where
  | setup (e : GoErr)
  | dispatch (errs : List GoErr)
deriving DecidableEq, Repr

/-- Observable side effects of one run: whether the tunnel was opened,
which endpoint capability introspection queried, which fetcher got
bound, and which unit names were fanned out. -/
structure Trace where
  tunnelOpened : Bool
  introspectedTarget : Option ConnTarget
  boundFetcher : Option FetcherKind
  dispatched : List String
deriving DecidableEq, Repr

/-- The trace of a run that stopped before opening the tunnel. -/
def emptyTrace : Trace := ⟨false, none, none, []⟩

/-- The `executeHandler` (src/main.go lines 173-255): open the tunnel,
connect, resolve unit names (introspecting with a `nil` connection when
pattern matching is requested, per the source's
`service.InstrospectForUnitMethods(nil)`), fan out the action and
aggregate the per-unit errors. -/
def executeHandler (cfg : Config) (w : HandlerWorld) : Option RunError × Trace :=
  match w.tunnelErr with
  | some e => (some (.setup (.sshTunnelErr e)), emptyTrace)
  | none =>
    match w.connErr with
    | some e => (some (.setup (.dbusErr e)), ⟨true, none, none, []⟩)
    | none =>
      if cfg.matchUnits then
        match instrospectForUnitMethods w none with
        | .error e =>
          (some (.setup (.introspectErr e)), ⟨true, some (connTargetOf none), none, []⟩)
        | .ok fk =>
          match applyFetcher w fk [] cfg.unitPatterns with
          | .error e =>
            (some (.setup (.listUnitsError e)),
              ⟨true, some (connTargetOf none), some fk, []⟩)
          | .ok stats =>
            let unitNames := stats.map (fun u => u.Name)
            let agg := dispatchUnits cfg w unitNames
            (if agg.isEmpty then none else some (.dispatch agg),
              ⟨true, some (connTargetOf none), some fk, unitNames⟩)
      else
        let agg := dispatchUnits cfg w cfg.unitPatterns
        (if agg.isEmpty then none else some (.dispatch agg),
          ⟨true, none, none, cfg.unitPatterns⟩)

/-- One full run under the plugin harness contract
(`sensu.NewGoHandler(..., checkArgs, executeHandler)`): the validation
callback runs first and a validation error stops the run before
`executeHandler` is entered. -/
def runHandler (cfg : Config) (w : HandlerWorld) : Option RunError × Trace :=
  match checkArgs cfg with
  | some e => (some (.setup e), emptyTrace)
  | none => executeHandler cfg w

/-! Section: Tunnel lifecycle (src/unnamed/part_000) -/

/-- The timer handed to `time.NewTimer` in `waitForSocket`:
`30 * time.Second`. -/
def socketWaitTimeoutSeconds : Nat := 30

/-- External behaviour during one `NewDBusTunnel`/`Close` lifecycle:
outcomes of the filesystem, process and watcher calls. -/
structure TunnelWorld where
  /-- The `os.MkdirTemp` outcome. -/
  mkdirTempErr : Option GoErr
  /-- The `fsnotify.NewWatcher` outcome. -/
  watcherNewFail : Option GoErr
  /-- The `watcher.Add(tmpdir)` outcome. -/
  watcherAddFail : Option GoErr
  /-- The `cmd.Start()` outcome for the spawned ssh process. -/
  cmdStartErr : Option GoErr
  /-- An error delivered on `watcher.Errors`, if any. -/
  watchErr : Option GoErr
  /-- Seconds until the forwarded socket appears in the watched temp
  directory, or `none` if it never does. -/
  socketReadyAt : Option Nat
  /-- The `t.cmd.Process.Kill()` outcome (only reachable when `t.cmd` is set). -/
  killErr : Option GoErr
  /-- The `os.RemoveAll(t.tmpdir)` outcome. -/
  removeAllErr : Option GoErr
deriving DecidableEq, Repr

/-- The externally observable resources owned by a tunnel. -/
structure ResourceState where
  tmpdirExists : Bool
  procRunning : Bool
  ctxCanceled : Bool
deriving DecidableEq, Repr

/-- The `DBusTunnel` value as far as `Close` inspects it.  `run()` never
assigns the started command to `t.cmd`, so after `NewDBusTunnel` the
field is always nil; the started process is instead tied to the
cancellation scope via `exec.CommandContext`. -/
structure DBusTunnel where
  cmdPresent : Bool
deriving DecidableEq, Repr

/-- The `waitForSocket` (src/unnamed/part_000 lines 150-177): watcher setup
errors propagate; otherwise the select returns nil on a filesystem
event, wraps a watcher error, or reports `connection timeout` when the
30-second timer fires first. -/
def waitForSocket (w : TunnelWorld) : Option GoErr :=
  match w.watcherNewFail with
  | some e => some (.watcherNewErr e)
  | none =>
    match w.watcherAddFail with
    | some e => some (.watcherAddErr e)
    | none =>
      match w.watchErr with
      | some e => some (.inotifyErr e)
      | none =>
        match w.socketReadyAt with
        | some t => if t ≤ socketWaitTimeoutSeconds then none else some .connectionTimeout
        | none => some .connectionTimeout

/-- The `run` (src/unnamed/part_000 lines 103-148): start the ssh process
(bound to the cancellation scope through `exec.CommandContext`), then
wait for the socket.  Returns the error and whether the process was
started; the started `cmd` is a local variable, never stored in `t.cmd`. -/
def tunnelRun (w : TunnelWorld) : Option GoErr × Bool :=
  match w.cmdStartErr with
  | some e => (some (.commandErr e), false)
  | none => (waitForSocket w, true)

/-- The `Close` (src/unnamed/part_000 lines 180-192): kill the process if
`t.cmd` is set (appending any kill error), cancel the cancellation scope
— which makes `exec.CommandContext` kill the started process — and
remove the temp directory, appending any removal error.  The result list
is the multierr aggregate (empty = nil). -/
def tunnelClose (t : DBusTunnel) (w : TunnelWorld) (s : ResourceState) :
    List GoErr × ResourceState :=
  let killErrs : List GoErr :=
    if t.cmdPresent then
      match w.killErr with
      | some e => [e]
      | none => []
    else []
  let removeErrs : List GoErr :=
    match w.removeAllErr with
    | some e => [e]
    | none => []
  (killErrs ++ removeErrs,
    ⟨s.tmpdirExists && w.removeAllErr.isSome, false, true⟩)

/-- The `NewDBusTunnel` (src/unnamed/part_000 lines 40-65): create the temp
directory, derive the cancellation scope, run the forwarding process and
wait for the socket; on a `run` failure call `t.Close()` (its own error
is discarded) and return the failure. -/
def newDBusTunnel (w : TunnelWorld) : Except GoErr DBusTunnel × ResourceState :=
  match w.mkdirTempErr with
  | some e => (.error e, ⟨false, false, false⟩)
  | none =>
    let t : DBusTunnel := ⟨false⟩
    match tunnelRun w with
    | (some e, started) =>
      (.error e, (tunnelClose t w ⟨true, started, false⟩).2)
    | (none, _) => (.ok t, ⟨true, true, false⟩)

/-! Section: Spec-side composition for the fallback fetch (claim C4) -/

/-- The spec's local pattern-filter stage: if patterns were requested,
keep exactly the units whose name matches at least one glob. -/
def patternFilterSpec (patterns : List String) (units : List UnitStatus) : List UnitStatus :=
  if patterns = [] then units
  else units.filter (fun u => patterns.any (fun p => globMatches p u.Name))

/-- The spec's local state-filter stage: if states were requested, keep
exactly the units whose load, active or sub state is one of them. -/
def stateFilterSpec (states : List String) (units : List UnitStatus) : List UnitStatus :=
  if states = [] then units
  else units.filter (fun u => states.any
    (fun s => u.LoadState == s || u.ActiveState == s || u.SubState == s))

/-! Section: Concrete worlds and configurations used as witnesses -/

/-- A world whose local system bus advertises only `ListUnits` while the
remote systemd also advertises `ListUnitsByPatterns`, with one nginx
unit on the remote, and where acting on `b.service` fails. -/
def sampleWorld : HandlerWorld :=
  ⟨none, none,
    fun t =>
      match t with
      | ConnTarget.localBus =>
        .ok [⟨"org.freedesktop.systemd1.Manager", ["ListUnits", "GetUnit"]⟩]
      | ConnTarget.remoteTunnel =>
        .ok [⟨"org.freedesktop.systemd1.Manager",
          ["ListUnits", "ListUnitsByPatterns", "GetUnit"]⟩],
    .ok [⟨"nginx.service", "loaded", "active", "running"⟩,
      ⟨"mysql.service", "loaded", "active", "running"⟩],
    fun _ => .ok [],
    fun _ _ => .ok [],
    fun _ u _ => if u = "b.service" then .error (.external "job failed") else .ok (1, "done")⟩

/-- A configuration that passes validation: restart two units verbatim. -/
def sampleConfig : Config := ⟨["a.service", "b.service"], false, "restart", "replace"⟩

/-- A configuration with pattern matching requested. -/
def matchConfig : Config := ⟨["*"], true, "restart", "replace"⟩

/-- A configuration with an empty unit list (rejected by `checkArgs`). -/
def emptyUnitsConfig : Config := ⟨[], false, "restart", "replace"⟩

/-- The error of a fallible call, `none` when it succeeded. -/
def exceptErr {α : Type} : Except GoErr α → Option GoErr
  | .error e => some e
  | .ok _ => none

/-- A tunnel world where nothing fails but the socket never appears. -/
def timeoutWorld : TunnelWorld := ⟨none, none, none, none, none, none, none, none⟩

/-- A tunnel world where the socket appears after one second. -/
def openOkWorld : TunnelWorld := ⟨none, none, none, none, none, some 1, none, none⟩

/-- A tunnel world where the socket appears but both `Process.Kill` and
`os.RemoveAll` fail during `Close`. -/
def failCloseWorld : TunnelWorld :=
  ⟨none, none, none, none, none, some 1, some (.external "kill failed"),
    some (.external "rm failed")⟩


/-! Section: General lemmas -/

theorem stringsContains_eq_true_iff (sl : List String) (s : String) :
    stringsContains sl s = true ↔ s ∈ sl := by
  induction sl with
  | nil => simp [stringsContains]
  | cons a rest ih =>
    by_cases h : s = a <;> simp [stringsContains, h, ih]

theorem unitMatchFirst_ok_of_valid (patterns : List String) (name : String)
    (h : ∀ p ∈ patterns, validPattern p = true) :
    unitMatchFirst patterns name = .ok (patterns.any (fun p => globMatches p name)) := by
  induction patterns with
  | nil => simp [unitMatchFirst]
  | cons p rest ih =>
    have hp : validPattern p = true := h p (by simp)
    have hrest : ∀ q ∈ rest, validPattern q = true := fun q hq => h q (by simp [hq])
    cases hm : globMatches p name with
    | true => simp [unitMatchFirst, filepathMatch, hp, hm]
    | false => simp [unitMatchFirst, filepathMatch, hp, hm, ih hrest]

theorem matchUnitPatterns_ok_of_valid (patterns : List String) (units : List UnitStatus)
    (h : ∀ p ∈ patterns, validPattern p = true) :
    matchUnitPatterns patterns units
      = .ok (units.filter (fun u => patterns.any (fun p => globMatches p u.Name))) := by
  induction units with
  | nil => simp [matchUnitPatterns]
  | cons u rest ih =>
    rw [matchUnitPatterns, unitMatchFirst_ok_of_valid patterns u.Name h, ih]
    cases hm : (patterns.any (fun p => globMatches p u.Name)) <;>
      simp [List.filter_cons, hm]

theorem length_filterMap_eq_countP {α β : Type} (f : α → Option β) (l : List α) :
    (l.filterMap f).length = l.countP (fun a => (f a).isSome) := by
  induction l with
  | nil => rfl
  | cons a l ih =>
    cases hf : f a <;> simp [List.filterMap_cons, hf, List.countP_cons, ih]

/-! Section: Claim theorems -/

/-- Claim C1: for every dispatch over a list of unit names, the channel
drained into the multierr aggregate contains exactly the per-unit errors
(one per failing unit, each preserved unchanged, every unit processed
regardless of the others), the aggregate is non-nil iff some unit
failed, and with exactly one failing unit it has exactly one
constituent. -/
theorem dispatch_aggregate_errors (cfg : Config) (w : HandlerWorld) (units : List String)
    (k : ActionKind) (h : getActionFunc cfg.action = .ok k) :
    dispatchUnits cfg w units = units.filterMap (fun u => exceptErr (w.invoke k u cfg.mode))
      ∧ (dispatchUnits cfg w units ≠ [] ↔
          ∃ u ∈ units, (exceptErr (w.invoke k u cfg.mode)).isSome = true)
      ∧ (dispatchUnits cfg w units).length
          = units.countP (fun u => (exceptErr (w.invoke k u cfg.mode)).isSome)
      ∧ (units.countP (fun u => (exceptErr (w.invoke k u cfg.mode)).isSome) = 1 →
          (dispatchUnits cfg w units).length = 1) := by
  have heq : dispatchUnits cfg w units
      = units.filterMap (fun u => exceptErr (w.invoke k u cfg.mode)) := by
    induction units with
    | nil => rfl
    | cons u rest ih =>
      rw [dispatchUnits, ih, List.filterMap_cons]
      cases hi : w.invoke k u cfg.mode <;>
        simp [goroutineBody, h, hi, sentErrors, exceptErr]
  have hlen : (dispatchUnits cfg w units).length
      = units.countP (fun u => (exceptErr (w.invoke k u cfg.mode)).isSome) := by
    rw [heq, length_filterMap_eq_countP]
  refine ⟨heq, ?_, hlen, fun h1 => hlen.trans h1⟩
  constructor
  · intro hne
    have hpos : 0 < (dispatchUnits cfg w units).length :=
      List.length_pos.mpr hne
    rw [hlen] at hpos
    exact List.countP_pos_iff.mp hpos
  · rintro ⟨u, hu, hp⟩ hnil
    have : units.countP (fun u => (exceptErr (w.invoke k u cfg.mode)).isSome) = 0 := by
      rw [← hlen, hnil]
      rfl
    have hpos : 0 < units.countP (fun u => (exceptErr (w.invoke k u cfg.mode)).isSome) :=
      List.countP_pos_iff.mpr ⟨u, hu, hp⟩
    omega

/-- Witness for C1: restarting `a.service` and `b.service` where only
`b.service` fails yields an aggregate with exactly that one error. -/
theorem dispatch_aggregate_errors_witness :
    getActionFunc sampleConfig.action = .ok ActionKind.restart
      ∧ dispatchUnits sampleConfig sampleWorld ["a.service", "b.service"]
          = [.external "job failed"] := by
  refine ⟨by decide, ?_⟩
  rw [(dispatch_aggregate_errors sampleConfig sampleWorld ["a.service", "b.service"]
    ActionKind.restart (by decide)).1]
  rfl

/-- Claim C2 (counterexample): the handler resolves capabilities through
`InstrospectForUnitMethods(nil)`, so the bound fetcher reflects the
local system bus — here `plain`, although introspecting the remote
connection would have selected `byPatterns`. -/
theorem introspection_reflects_local_counterexample :
    (executeHandler matchConfig sampleWorld).2.boundFetcher = some FetcherKind.plain
      ∧ instrospectForUnitMethods sampleWorld (some ConnTarget.remoteTunnel)
          = .ok FetcherKind.byPatterns
      ∧ FetcherKind.plain ≠ FetcherKind.byPatterns :=
  ⟨rfl, rfl, by decide⟩

/-- Claim C2 (amended): `InstrospectForUnitMethods` introspects exactly
the connection it is given, falling back to a fresh local system bus
connection when given nil — which is what `executeHandler` passes on
every run, so the handler's discovered method set reflects the local
systemd's interface, used as a stand-in for the remote one. -/
theorem introspection_target_of_given_conn (w1 w2 : HandlerWorld) (conn : Option ConnTarget)
    (hagree : w1.introspect (connTargetOf conn) = w2.introspect (connTargetOf conn)) :
    instrospectForUnitMethods w1 conn = instrospectForUnitMethods w2 conn
      ∧ connTargetOf none = ConnTarget.localBus
      ∧ (∀ c, connTargetOf (some c) = c)
      ∧ ∀ cfg : Config, cfg.matchUnits = true → w1.tunnelErr = none → w1.connErr = none →
          (executeHandler cfg w1).2.introspectedTarget = some ConnTarget.localBus := by
  refine ⟨?_, rfl, fun c => rfl, ?_⟩
  · unfold instrospectForUnitMethods
    rw [hagree]
  · intro cfg hm ht hc
    unfold executeHandler
    rw [ht, hc, hm]
    cases hi : instrospectForUnitMethods w1 none with
    | error e => simp [connTargetOf]
    | ok fk =>
      cases ha : applyFetcher w1 fk [] cfg.unitPatterns with
      | error e => simp [ha, connTargetOf]
      | ok stats => simp [ha, connTargetOf]

/-- Witness for C2 (amended): concrete instantiation at the sample world
and the pattern-matching configuration. -/
theorem introspection_target_of_given_conn_witness :
    instrospectForUnitMethods sampleWorld none = instrospectForUnitMethods sampleWorld none
      ∧ connTargetOf none = ConnTarget.localBus
      ∧ (executeHandler matchConfig sampleWorld).2.introspectedTarget
          = some ConnTarget.localBus := by
  have h := introspection_target_of_given_conn sampleWorld sampleWorld none rfl
  exact ⟨h.1, h.2.1, h.2.2.2 matchConfig rfl rfl rfl⟩

/-- Claim C3: `selectFetcher` prefers `ListUnitsByPatterns`, then
`ListUnitsFiltered`, then `ListUnits`, and otherwise fails with a
capability error carrying the discovered method set. -/
theorem select_fetcher_preference (m : List String) :
    ("ListUnitsByPatterns" ∈ m → selectFetcher m = .ok FetcherKind.byPatterns)
      ∧ ("ListUnitsByPatterns" ∉ m → "ListUnitsFiltered" ∈ m →
          selectFetcher m = .ok FetcherKind.filtered)
      ∧ ("ListUnitsByPatterns" ∉ m → "ListUnitsFiltered" ∉ m → "ListUnits" ∈ m →
          selectFetcher m = .ok FetcherKind.plain)
      ∧ ("ListUnitsByPatterns" ∉ m → "ListUnitsFiltered" ∉ m → "ListUnits" ∉ m →
          selectFetcher m = .error (.noListUnitsFunc m)) := by
  refine ⟨fun h1 => ?_, fun h1 h2 => ?_, fun h1 h2 h3 => ?_, fun h1 h2 h3 => ?_⟩ <;>
    simp [selectFetcher, *]

/-- Witness for C3: concrete method sets exercising the preference order
and the capability error. -/
theorem select_fetcher_preference_witness :
    selectFetcher ["ListUnitsFiltered", "ListUnits"] = .ok FetcherKind.filtered
      ∧ selectFetcher ["GetUnit"] = .error (.noListUnitsFunc ["GetUnit"]) := by
  constructor
  · exact (select_fetcher_preference _).2.1 (by decide) (by decide)
  · exact (select_fetcher_preference _).2.2.2 (by decide) (by decide) (by decide)

/-- Claim C4: for well-formed patterns, the fallback fetch bound when
only `ListUnits` is available equals the spec's composition "enumerate
all units, then locally pattern-filter if patterns were given, then
locally state-filter (any of the three state fields) if states were
given". -/
theorem fallback_fetch_equals_composition (allUnits : List UnitStatus)
    (states patterns : List String) (hval : ∀ p ∈ patterns, validPattern p = true) :
    listUnitsWrapper (.ok allUnits) states patterns
      = .ok (stateFilterSpec states (patternFilterSpec patterns allUnits)) := by
  cases patterns with
  | nil =>
    cases states with
    | nil => simp [listUnitsWrapper, stateFilterSpec, patternFilterSpec]
    | cons s ss => simp [listUnitsWrapper, stateFilterSpec, patternFilterSpec]
  | cons p ps =>
    have hm := matchUnitPatterns_ok_of_valid (p :: ps) allUnits hval
    cases states with
    | nil => simp [listUnitsWrapper, hm, stateFilterSpec, patternFilterSpec]
    | cons s ss => simp [listUnitsWrapper, hm, stateFilterSpec, patternFilterSpec]

/-- Witness for C4: the fallback fetch on two units with an `nginx*`
pattern and an `active` state filter keeps exactly the nginx unit. -/
theorem fallback_fetch_equals_composition_witness :
    listUnitsWrapper (.ok [⟨"nginx.service", "loaded", "active", "running"⟩,
        ⟨"mysql.service", "loaded", "inactive", "dead"⟩]) ["active"] ["nginx*"]
      = .ok [⟨"nginx.service", "loaded", "active", "running"⟩] := by
  rw [fallback_fetch_equals_composition _ _ _ (by decide)]
  rfl

/-- Claim C5: for well-formed patterns, `MatchUnitPatterns` returns
exactly the units whose name matches at least one glob, and permuting
the pattern list does not change membership of the result. -/
theorem match_unit_patterns_filter (P P' : List String) (U : List UnitStatus)
    (hval : ∀ p ∈ P, validPattern p = true) (hperm : P.Perm P') :
    matchUnitPatterns P U = .ok (U.filter (fun u => P.any (fun p => globMatches p u.Name)))
      ∧ (∀ u, u ∈ U.filter (fun u => P.any (fun p => globMatches p u.Name)) ↔
          u ∈ U ∧ ∃ p ∈ P, globMatches p u.Name = true)
      ∧ ∀ V, matchUnitPatterns P' U = .ok V →
          ∀ u, (u ∈ V ↔ u ∈ U.filter (fun u => P.any (fun p => globMatches p u.Name))) := by
  have hval' : ∀ p ∈ P', validPattern p = true := fun p hp => hval p (hperm.mem_iff.mpr hp)
  have h1 := matchUnitPatterns_ok_of_valid P U hval
  have h2 := matchUnitPatterns_ok_of_valid P' U hval'
  refine ⟨h1, ?_, ?_⟩
  · intro u
    simp [List.mem_filter, List.any_eq_true]
  · intro V hV u
    rw [h2] at hV
    cases hV
    simp only [List.mem_filter, List.any_eq_true]
    constructor
    · rintro ⟨hu, p, hp, hg⟩
      exact ⟨hu, p, hperm.mem_iff.mpr hp, hg⟩
    · rintro ⟨hu, p, hp, hg⟩
      exact ⟨hu, p, hperm.mem_iff.mp hp, hg⟩

/-- Witness for C5: two well-formed patterns select exactly the nginx
unit out of two. -/
theorem match_unit_patterns_filter_witness :
    matchUnitPatterns ["nginx*", "[ab]x"] [⟨"nginx.service", "loaded", "active", "running"⟩,
        ⟨"mysql.service", "loaded", "active", "running"⟩]
      = .ok [⟨"nginx.service", "loaded", "active", "running"⟩] := by
  rw [(match_unit_patterns_filter ["nginx*", "[ab]x"] ["nginx*", "[ab]x"] _ (by decide)
    (List.Perm.refl _)).1]
  rfl

/-- Claim C6 (counterexample): a malformed pattern is not always fatal —
with an empty unit list, or when every unit already matched an earlier
pattern, `MatchUnitPatterns` never evaluates the malformed pattern and
succeeds. -/
theorem match_malformed_skipped_counterexample :
    validPattern "[" = false
      ∧ matchUnitPatterns ["a", "["] [⟨"a", "loaded", "active", "running"⟩]
          = .ok [⟨"a", "loaded", "active", "running"⟩]
      ∧ matchUnitPatterns ["a", "["] [] = .ok [] :=
  ⟨rfl, rfl, rfl⟩

/-- Claim C6 (amended): whenever the first pattern is malformed and the
unit list is non-empty — so the malformed pattern is actually evaluated —
`MatchUnitPatterns` fails the whole resolution with an error naming the
offending pattern. -/
theorem match_malformed_head_fails (P : List String) (U : List UnitStatus) (p : String)
    (hhead : P.head? = some p) (hbad : validPattern p = false) (hne : U ≠ []) :
    matchUnitPatterns P U = .error (.matchPattern p .badPattern) := by
  cases U with
  | nil => exact absurd rfl hne
  | cons u rest =>
    cases P with
    | nil => simp at hhead
    | cons q P' =>
      obtain rfl : q = p := by simpa using hhead
      simp [matchUnitPatterns, unitMatchFirst, filepathMatch, hbad]

/-- Witness for C6 (amended): the malformed pattern `[` in head position
with one unit yields the wrapped bad-pattern error. -/
theorem match_malformed_head_fails_witness :
    matchUnitPatterns ["["] [⟨"x", "loaded", "active", "running"⟩]
      = .error (.matchPattern "[" .badPattern) :=
  match_malformed_head_fails ["["] [⟨"x", "loaded", "active", "running"⟩] "[" rfl (by decide)
    (by decide)

/-- Claim C7: when the rendezvous socket is not ready within the fixed
30-second timer, `NewDBusTunnel` returns the timeout error and — via the
`Close` it performs on the failure path — leaves the temp directory
removed, the forwarding process stopped and the cancellation scope
canceled before returning. -/
theorem open_timeout_cleanup (w : TunnelWorld)
    (hmk : w.mkdirTempErr = none) (hwn : w.watcherNewFail = none)
    (hwa : w.watcherAddFail = none) (hcs : w.cmdStartErr = none) (hwe : w.watchErr = none)
    (hlate : ∀ t, w.socketReadyAt = some t → socketWaitTimeoutSeconds < t)
    (hrm : w.removeAllErr = none) :
    newDBusTunnel w = (.error .connectionTimeout, ⟨false, false, true⟩)
      ∧ socketWaitTimeoutSeconds = 30 := by
  refine ⟨?_, rfl⟩
  have hwait : waitForSocket w = some .connectionTimeout := by
    unfold waitForSocket
    rw [hwn, hwa, hwe]
    cases hr : w.socketReadyAt with
    | none => rfl
    | some t =>
      have hlt := hlate t hr
      simp [Nat.not_le.mpr hlt]
  have htr : tunnelRun w = (some .connectionTimeout, true) := by
    unfold tunnelRun
    rw [hcs, hwait]
  unfold newDBusTunnel
  rw [hmk, htr]
  simp [tunnelClose, hrm]

/-- Witness for C7: a world where the socket never appears. -/
theorem open_timeout_cleanup_witness :
    newDBusTunnel timeoutWorld = (.error .connectionTimeout, ⟨false, false, true⟩) :=
  (open_timeout_cleanup timeoutWorld rfl rfl rfl rfl rfl (fun _ h => nomatch h) rfl).1

/-- Claim C8: `Close` cancels the cancellation scope (which stops the
forwarding process started under `exec.CommandContext`), attempts the
kill of `t.cmd` when present and the removal of the temp directory even
when other steps fail, aggregating all sub-failures instead of
short-circuiting; and a successful `NewDBusTunnel` followed by `Close`
leaves no temp directory, no process and a canceled scope. -/
theorem close_releases_all (t : DBusTunnel) (w : TunnelWorld) (s : ResourceState) :
    (tunnelClose t w s).2.ctxCanceled = true
      ∧ (tunnelClose t w s).2.procRunning = false
      ∧ (w.removeAllErr = none → (tunnelClose t w s).2.tmpdirExists = false)
      ∧ (∀ ek er, t.cmdPresent = true → w.killErr = some ek → w.removeAllErr = some er →
          (tunnelClose t w s).1 = [ek, er])
      ∧ (∀ t' s', newDBusTunnel w = (.ok t', s') → w.removeAllErr = none →
          (tunnelClose t' w s').2 = ⟨false, false, true⟩) := by
  refine ⟨rfl, rfl, ?_, ?_, ?_⟩
  · intro hrm
    simp [tunnelClose, hrm]
  · intro ek er hcmd hk hr
    simp [tunnelClose, hcmd, hk, hr]
  · intro t' s' hopen hrm
    simp [tunnelClose, hrm]

/-- Witness for C8: both kill and removal failing are aggregated in
order, and an open-then-close lifecycle releases everything. -/
theorem close_releases_all_witness :
    (tunnelClose ⟨true⟩ failCloseWorld ⟨true, true, false⟩).1
        = [.external "kill failed", .external "rm failed"]
      ∧ (tunnelClose ⟨false⟩ openOkWorld ⟨true, true, false⟩).2 = ⟨false, false, true⟩ := by
  constructor
  · exact (close_releases_all ⟨true⟩ failCloseWorld ⟨true, true, false⟩).2.2.2.1
      (.external "kill failed") (.external "rm failed") rfl rfl rfl
  · exact (close_releases_all ⟨false⟩ openOkWorld ⟨true, true, false⟩).2.2.2.2
      ⟨false⟩ ⟨true, true, false⟩ rfl rfl

/-- Claim C9: an empty unit list, an action outside the seven supported
names, or a mode outside the five supported modes is caught by
`checkArgs` as a single configuration error before `executeHandler`
runs — no tunnel is opened, no units are fanned out, and the error is a
setup error, never a per-unit aggregate. -/
theorem config_error_before_fanout (cfg : Config) (w : HandlerWorld)
    (h : cfg.unitPatterns = [] ∨ cfg.action ∉ allowedActions ∨ cfg.mode ∉ allowedModes) :
    ∃ e, checkArgs cfg = some e
      ∧ (e = GoErr.unitRequired ∨ e = .badAction cfg.action ∨ e = .badMode cfg.mode)
      ∧ runHandler cfg w = (some (.setup e), emptyTrace)
      ∧ (runHandler cfg w).2.tunnelOpened = false
      ∧ (runHandler cfg w).2.dispatched = [] := by
  have hsome : ∃ e, checkArgs cfg = some e
      ∧ (e = GoErr.unitRequired ∨ e = .badAction cfg.action ∨ e = .badMode cfg.mode) := by
    by_cases h1 : cfg.unitPatterns.length = 0
    · exact ⟨.unitRequired, by simp [checkArgs, h1], Or.inl rfl⟩
    · by_cases h2 : stringsContains allowedActions cfg.action
      · by_cases h3 : stringsContains allowedModes cfg.mode
        · exfalso
          rcases h with h | h | h
          · exact h1 (by simp [h])
          · exact h ((stringsContains_eq_true_iff _ _).mp h2)
          · exact h ((stringsContains_eq_true_iff _ _).mp h3)
        · exact ⟨.badMode cfg.mode, by simp [checkArgs, h1, h2, h3], Or.inr (Or.inr rfl)⟩
      · exact ⟨.badAction cfg.action, by simp [checkArgs, h1, h2], Or.inr (Or.inl rfl)⟩
  obtain ⟨e, he, hwhich⟩ := hsome
  refine ⟨e, he, hwhich, ?_, ?_, ?_⟩ <;> simp [runHandler, he, emptyTrace]

/-- Witness for C9: the empty unit list is rejected before any effect. -/
theorem config_error_before_fanout_witness :
    ∃ e, checkArgs emptyUnitsConfig = some e
      ∧ (e = GoErr.unitRequired ∨ e = .badAction emptyUnitsConfig.action
          ∨ e = .badMode emptyUnitsConfig.mode)
      ∧ runHandler emptyUnitsConfig sampleWorld = (some (.setup e), emptyTrace)
      ∧ (runHandler emptyUnitsConfig sampleWorld).2.tunnelOpened = false
      ∧ (runHandler emptyUnitsConfig sampleWorld).2.dispatched = [] :=
  config_error_before_fanout emptyUnitsConfig sampleWorld (Or.inl rfl)

/-- Claim C10: once `checkArgs` accepted the configuration, the in-
goroutine `getActionFunc` lookup always succeeds, so the fall-through
branch that would invoke a nil action function is unreachable and each
dispatch goroutine sends at most one error into the bounded channel. -/
theorem goroutine_sends_at_most_one (cfg : Config) (w : HandlerWorld) (u : String)
    (h : checkArgs cfg = none) :
    (∃ k, getActionFunc cfg.action = .ok k)
      ∧ ∃ errs, goroutineBody cfg w u = .sent errs ∧ errs.length ≤ 1 := by
  have hact : stringsContains allowedActions cfg.action = true := by
    unfold checkArgs at h
    by_cases h1 : cfg.unitPatterns.length = 0
    · simp [h1] at h
    · by_cases h2 : stringsContains allowedActions cfg.action
      · exact h2
      · simp [h1, h2] at h
  have hmem : cfg.action ∈ allowedActions := (stringsContains_eq_true_iff _ _).mp hact
  have hk : ∃ k, getActionFunc cfg.action = .ok k := by
    simp only [allowedActions, List.mem_cons, List.not_mem_nil, or_false] at hmem
    rcases hmem with h' | h' | h' | h' | h' | h' | h'
    · exact ⟨ActionKind.start, by rw [h']; decide⟩
    · exact ⟨ActionKind.stop, by rw [h']; decide⟩
    · exact ⟨ActionKind.restart, by rw [h']; decide⟩
    · exact ⟨ActionKind.reload, by rw [h']; decide⟩
    · exact ⟨ActionKind.tryRestart, by rw [h']; decide⟩
    · exact ⟨ActionKind.reloadOrRestart, by rw [h']; decide⟩
    · exact ⟨ActionKind.reloadOrTryRestart, by rw [h']; decide⟩
  obtain ⟨k, hk⟩ := hk
  refine ⟨⟨k, hk⟩, ?_⟩
  cases hi : w.invoke k u cfg.mode with
  | error e => exact ⟨[e], by simp [goroutineBody, hk, hi], Nat.le_refl 1⟩
  | ok v => exact ⟨[], by simp [goroutineBody, hk, hi], Nat.zero_le 1⟩

/-- Witness for C10: the validated sample configuration, acting on the
failing unit, sends exactly one error and does not panic. -/
theorem goroutine_sends_at_most_one_witness :
    (∃ k, getActionFunc sampleConfig.action = .ok k)
      ∧ ∃ errs, goroutineBody sampleConfig sampleWorld "b.service" = .sent errs
          ∧ errs.length ≤ 1 :=
  goroutine_sends_at_most_one sampleConfig sampleWorld "b.service" (by decide)
